import Mathlib

/-!
Verification of the DTU AT-command HTTP client (embassy-esp32 driver).

The development shallowly embeds the pure parsing functions of
`src/parser.rs`, `src/types.rs`, `src/util.rs` and the control-flow of the
client loops of `src/client.rs`.  Bytes are modelled as `Nat`; byte buffers
as `List Nat`.  The asynchronous UART transport is modelled by an explicit
list of read events (`ReadEvent`), and the wall-clock deadlines of the
polling loops by a fuel parameter (one poll iteration per unit of fuel; an
exhausted event stream reads as a timeout).
-/

namespace DtuAt

/-- ASCII bytes of a (pure-ASCII) string, used to write marker constants
the way the source writes byte-string literals. -/
def asciiBytes (s : String) : List Nat := s.data.map Char.toNat

/-- `util.rs::find_subslice` inner search: the index (counting from `i`) of
the first position of `hay` at which `needle` is a prefix of the remaining
list.  Mirrors `haystack.windows(needle.len()).position(|w| w == needle)`. -/
def findSubAux (needle : List Nat) : List Nat → Nat → Option Nat
  | [], _ => none
  | hay@(_ :: t), i =>
      if needle.isPrefixOf hay then some i else findSubAux needle t (i + 1)

/-- `util.rs::find_subslice`: first occurrence index of `needle` in
`haystack`; `none` for an empty needle or a haystack shorter than the
needle. -/
def find_subslice (haystack needle : List Nat) : Option Nat :=
  if needle = [] ∨ haystack.length < needle.length then none
  else findSubAux needle haystack 0

theorem findSubAux_isSome_iff (needle : List Nat) (hne : needle ≠ []) :
    ∀ (hay : List Nat) (i : Nat),
      (findSubAux needle hay i).isSome ↔ needle <:+: hay := by
  intro hay
  induction hay with
  | nil =>
      intro i
      simp only [findSubAux, Option.isSome_none, Bool.false_eq_true, false_iff]
      intro hinf
      exact hne (List.eq_nil_of_infix_nil hinf)
  | cons b t ih =>
      intro i
      simp only [findSubAux]
      by_cases hp : needle.isPrefixOf (b :: t)
      · simp only [hp, if_true, Option.isSome_some, true_iff]
        exact (List.isPrefixOf_iff_prefix.mp hp).isInfix
      · simp only [hp, Bool.false_eq_true, if_false, ih (i + 1)]
        rw [List.infix_cons_iff]
        constructor
        · exact Or.inr
        · rintro (hpre | hinf)
          · exact absurd (List.isPrefixOf_iff_prefix.mpr hpre) hp
          · exact hinf

/-- Correctness of `find_subslice` as a substring test: it finds something
iff the needle is nonempty and an infix of the haystack. -/
theorem find_subslice_isSome_iff (haystack needle : List Nat) :
    (find_subslice haystack needle).isSome ↔ needle ≠ [] ∧ needle <:+: haystack := by
  unfold find_subslice
  by_cases hne : needle = []
  · simp [hne]
  · by_cases hlen : haystack.length < needle.length
    · simp only [hne, hlen, or_true, false_or, if_true, Option.isSome_none,
        Bool.false_eq_true, false_iff, not_and]
      intro _ hinf
      exact absurd hinf.length_le (by omega)
    · simp only [hne, hlen, or_false, false_or, if_false]
      rw [findSubAux_isSome_iff needle hne haystack 0]
      exact (and_iff_right hne).symm

theorem find_subslice_eq_none_iff (haystack needle : List Nat) :
    find_subslice haystack needle = none ↔ ¬(needle ≠ [] ∧ needle <:+: haystack) := by
  rw [← find_subslice_isSome_iff, Option.isSome_iff_ne_none]
  tauto

/-- An infix of the haystack stays an infix after extending the haystack on
either side. -/
theorem find_subslice_isSome_append (pre buf needle : List Nat)
    (h : (find_subslice buf needle).isSome) :
    (find_subslice (pre ++ buf) needle).isSome := by
  rw [find_subslice_isSome_iff] at h ⊢
  exact ⟨h.1, h.2.trans ⟨pre, [], by simp⟩⟩

/-! ### Marker constants (`parser.rs`) -/

def crlfOkCrlf : List Nat := asciiBytes "\r\nOK\r\n"
def lfOkLf : List Nat := asciiBytes "\nOK\n"
def okCrlf : List Nat := asciiBytes "OK\r\n"
def okLf : List Nat := asciiBytes "OK\n"
def fsHttpOkColon : List Nat := asciiBytes "FS@HTTP OK:"
def fsHttpFailColon : List Nat := asciiBytes "FS@HTTP FAIL:"
def errColonBytes : List Nat := asciiBytes "ERR:"
def errorBytes : List Nat := asciiBytes "ERROR"
def infoCodeMarker : List Nat := asciiBytes "FS@HTTP INFO CODE:"
def successCodeMarker : List Nat := asciiBytes "FS@HTTP SUCCESS CODE:"
def redirectCodeMarker : List Nat := asciiBytes "FS@HTTP REDIRECT CODE:"
def clientErrorCodeMarker : List Nat := asciiBytes "FS@HTTP CLIENT ERROR CODE:"
def serverErrorCodeMarker : List Nat := asciiBytes "FS@HTTP SERVER ERROR CODE:"
def http1Bytes : List Nat := asciiBytes "HTTP/1."
def fsAtBytes : List Nat := asciiBytes "FS@"
def crlfCrlf : List Nat := asciiBytes "\r\n\r\n"
def lfLf : List Nat := asciiBytes "\n\n"

/-- The five vendor status markers, in the priority order of
`parser.rs::parse_status_code`. -/
def fsCodeMarkers : List (List Nat) :=
  [infoCodeMarker, successCodeMarker, redirectCodeMarker,
   clientErrorCodeMarker, serverErrorCodeMarker]

/-- Rust `buf.ends_with(needle)`. -/
def ends_with (buf needle : List Nat) : Bool := needle.isSuffixOf buf

/-- `parser.rs::contains_ok`. -/
def contains_ok (buf : List Nat) : Bool :=
  (find_subslice buf crlfOkCrlf).isSome
    || (find_subslice buf lfOkLf).isSome
    || ends_with buf okCrlf
    || ends_with buf okLf
    || (find_subslice buf fsHttpOkColon).isSome

/-- `parser.rs::contains_http_ready`. -/
def contains_http_ready (buf : List Nat) : Bool :=
  (find_subslice buf fsHttpOkColon).isSome

/-- `parser.rs::contains_http_fail`. -/
def contains_http_fail (buf : List Nat) : Bool :=
  (find_subslice buf fsHttpFailColon).isSome

/-- `parser.rs::contains_at_error`. -/
def contains_at_error (buf : List Nat) : Bool :=
  (find_subslice buf errColonBytes).isSome || (find_subslice buf errorBytes).isSome

/-- Marker-level characterisation of `contains_ok`. -/
theorem contains_ok_iff (buf : List Nat) :
    contains_ok buf = true ↔
      crlfOkCrlf <:+: buf ∨ lfOkLf <:+: buf ∨ okCrlf <:+ buf ∨ okLf <:+ buf ∨
        fsHttpOkColon <:+: buf := by
  unfold contains_ok ends_with
  simp only [Bool.or_eq_true, Option.isSome_iff_exists, List.isSuffixOf_iff_suffix,
    ← Option.isSome_iff_exists]
  rw [find_subslice_isSome_iff, find_subslice_isSome_iff, find_subslice_isSome_iff]
  constructor
  · rintro ((((⟨_, h⟩ | ⟨_, h⟩) | h) | h) | ⟨_, h⟩) <;> tauto
  · rintro (h | h | h | h | h)
    · exact Or.inl (Or.inl (Or.inl (Or.inl ⟨by decide, h⟩)))
    · exact Or.inl (Or.inl (Or.inl (Or.inr ⟨by decide, h⟩)))
    · exact Or.inl (Or.inl (Or.inr h))
    · exact Or.inl (Or.inr h)
    · exact Or.inr ⟨by decide, h⟩

/-- Marker-level characterisation of `contains_at_error`. -/
theorem contains_at_error_iff (buf : List Nat) :
    contains_at_error buf = true ↔ errColonBytes <:+: buf ∨ errorBytes <:+: buf := by
  unfold contains_at_error
  simp only [Bool.or_eq_true]
  rw [find_subslice_isSome_iff, find_subslice_isSome_iff]
  constructor
  · rintro (⟨_, h⟩ | ⟨_, h⟩) <;> tauto
  · rintro (h | h)
    · exact Or.inl ⟨by decide, h⟩
    · exact Or.inr ⟨by decide, h⟩

/-! ### Status-code parsing (`parser.rs`) -/

/-- `b.is_ascii_digit()`. -/
def isAsciiDigit (b : Nat) : Bool := 48 ≤ b && b ≤ 57

/-- `u16` saturation bound used by `saturating_mul` / `saturating_add`. -/
def sat16 (n : Nat) : Nat := min n 65535

/-- Scanning loop of `parser.rs::parse_u16_from_prefix`: skip to the first
ASCII digit, accumulate a saturating `u16` over the following digit run,
stop at the first non-digit after the run. -/
def parseU16Loop : List Nat → Bool → Nat → Option Nat
  | [], started, value => if started then some value else none
  | b :: rest, started, value =>
      if isAsciiDigit b then
        parseU16Loop rest true (sat16 (sat16 (value * 10) + (b - 48)))
      else if started then some value
      else parseU16Loop rest started value

/-- `parser.rs::parse_u16_from_prefix`. -/
def parse_u16_scan (data : List Nat) : Option Nat := parseU16Loop data false 0

/-- Rust `iter().rposition(p)`: index of the last element satisfying `p`. -/
def rposition (p : Nat → Bool) (l : List Nat) : Option Nat :=
  match l.reverse.findIdx? p with
  | some i => some (l.length - 1 - i)
  | none => none

/-- `parser.rs::parse_fs_http_code`: find `marker`, take its line (up to
the first CR or LF), split at the line's last comma, and parse the `u16`
after the comma. -/
def parse_fs_http_code (raw marker : List Nat) : Option Nat :=
  match find_subslice raw marker with
  | none => none
  | some idx =>
      let sub := raw.drop idx
      let lineEnd :=
        match sub.findIdx? (fun b => b == 13 || b == 10) with
        | some p => p
        | none => sub.length
      let line := sub.take lineEnd
      match rposition (fun b => b == 44) line with
      | none => none
      | some comma => parse_u16_scan (line.drop (comma + 1))

/-- Marker-priority loop of `parser.rs::parse_status_code`. -/
def firstFsCode (raw : List Nat) : List (List Nat) → Option Nat
  | [] => none
  | m :: ms =>
      match parse_fs_http_code raw m with
      | some c => some c
      | none => firstFsCode raw ms

/-- `parser.rs::parse_status_code`. -/
def parse_status_code (raw : List Nat) : Option Nat :=
  match firstFsCode raw fsCodeMarkers with
  | some c => some c
  | none =>
      match find_subslice raw http1Bytes with
      | some idx =>
          let sub := raw.drop idx
          match sub.findIdx? (fun b => b == 32) with
          | some space => parse_u16_scan (sub.drop (space + 1))
          | none => none
      | none => none

theorem parse_fs_http_code_of_find_none (raw marker : List Nat)
    (h : find_subslice raw marker = none) : parse_fs_http_code raw marker = none := by
  unfold parse_fs_http_code
  rw [h]

theorem firstFsCode_eq_some (raw : List Nat) :
    ∀ (ms : List (List Nat)) (i : Nat) (hi : i < ms.length) (c : Nat),
      parse_fs_http_code raw (ms.get ⟨i, hi⟩) = some c →
      (∀ (j : Nat) (hj : j < ms.length), j < i → parse_fs_http_code raw (ms.get ⟨j, hj⟩) = none) →
      firstFsCode raw ms = some c := by
  intro ms
  induction ms with
  | nil => intro i hi; exact absurd hi (by simp)
  | cons m t ih =>
      intro i hi c hsome hnone
      match i with
      | 0 =>
          simp only [List.get] at hsome
          simp only [firstFsCode, hsome]
      | Nat.succ i' =>
          have hm : parse_fs_http_code raw m = none := by
            have := hnone 0 (by simp) (Nat.succ_pos i')
            simpa using this
          simp only [firstFsCode, hm]
          exact ih i' (by simpa using hi) c (by simpa using hsome)
            (fun j hj hji =>
              by simpa using hnone (j + 1) (by simpa using hj) (by omega))

theorem firstFsCode_eq_none (raw : List Nat) :
    ∀ (ms : List (List Nat)),
      (∀ m ∈ ms, parse_fs_http_code raw m = none) → firstFsCode raw ms = none := by
  intro ms
  induction ms with
  | nil => intro _; rfl
  | cons m t ih =>
      intro h
      have hm := h m (List.mem_cons_self m t)
      simp only [firstFsCode, hm]
      exact ih (fun m' hm' => h m' (List.mem_cons_of_mem m hm'))

/-- C5: `contains_ok` holds iff the buffer contains `\r\nOK\r\n` or
`\nOK\n`, ends with `OK\r\n` or `OK\n`, or contains `FS@HTTP OK:`;
`contains_at_error` holds iff the buffer contains `ERR:` or `ERROR`
anywhere.  The concrete buffers `"\r\nOK\r\n"`, `"garbageOK\n"` and
`"...FS@HTTP OK:1"` classify as success, while `"ERROR\r\n"` classifies as
error and not as success. -/
theorem claim_c5_marker_classification :
    (∀ buf : List Nat,
       (contains_ok buf = true ↔
         crlfOkCrlf <:+: buf ∨ lfOkLf <:+: buf ∨ okCrlf <:+ buf ∨ okLf <:+ buf ∨
           fsHttpOkColon <:+: buf)
       ∧ (contains_at_error buf = true ↔
           errColonBytes <:+: buf ∨ errorBytes <:+: buf))
    ∧ contains_ok (asciiBytes "\r\nOK\r\n") = true
    ∧ contains_ok (asciiBytes "garbageOK\n") = true
    ∧ contains_ok (asciiBytes "...FS@HTTP OK:1") = true
    ∧ contains_at_error (asciiBytes "ERROR\r\n") = true
    ∧ contains_ok (asciiBytes "ERROR\r\n") = false :=
  ⟨fun buf => ⟨contains_ok_iff buf, contains_at_error_iff buf⟩,
    by decide, by decide, by decide, by decide, by decide⟩

/-- C2: `parse_status_code` tries the five vendor markers in priority
order, taking the first one whose line yields a code (marker line up to
the first CR/LF, split at its last comma, digits parsed after it); when no
marker yields a code, it falls back to the digits after the first space
following `HTTP/1.`, and otherwise returns no code.  When exactly one
marker occurs in the buffer and its line yields a code, that code is the
result. -/
theorem claim_c2_parse_status_code :
    (∀ (raw : List Nat) (i : Fin fsCodeMarkers.length) (c : Nat),
        parse_fs_http_code raw (fsCodeMarkers.get i) = some c →
        (∀ j : Fin fsCodeMarkers.length, (j : Nat) < (i : Nat) →
            parse_fs_http_code raw (fsCodeMarkers.get j) = none) →
        parse_status_code raw = some c)
    ∧ (∀ raw : List Nat,
        (∀ m ∈ fsCodeMarkers, parse_fs_http_code raw m = none) →
        find_subslice raw http1Bytes = none → parse_status_code raw = none)
    ∧ (∀ (raw : List Nat) (idx : Nat),
        (∀ m ∈ fsCodeMarkers, parse_fs_http_code raw m = none) →
        find_subslice raw http1Bytes = some idx →
        parse_status_code raw =
          (match (raw.drop idx).findIdx? (fun b => b == 32) with
           | some space => parse_u16_scan ((raw.drop idx).drop (space + 1))
           | none => none))
    ∧ (∀ (raw : List Nat) (i : Fin fsCodeMarkers.length) (c : Nat),
        (∀ j : Fin fsCodeMarkers.length, j ≠ i →
            find_subslice raw (fsCodeMarkers.get j) = none) →
        parse_fs_http_code raw (fsCodeMarkers.get i) = some c →
        parse_status_code raw = some c)
    ∧ parse_status_code (asciiBytes "HTTP/1.1 404 Not Found\r\n\r\nbody") = some 404
    ∧ parse_status_code (asciiBytes "FS@HTTP SUCCESS CODE:0,200\r\nHELLO\r\nFS@HTTP OK:")
        = some 200 := by
  refine ⟨?_, ?_, ?_, ?_, by decide, by decide⟩
  · intro raw i c hsome hnone
    unfold parse_status_code
    rw [firstFsCode_eq_some raw fsCodeMarkers i.1 i.2 c hsome
      (fun j hj hji => hnone ⟨j, hj⟩ hji)]
  · intro raw h hfind
    unfold parse_status_code
    rw [firstFsCode_eq_none raw fsCodeMarkers h, hfind]
  · intro raw idx h hfind
    unfold parse_status_code
    rw [firstFsCode_eq_none raw fsCodeMarkers h, hfind]
  · intro raw i c hothers hsome
    unfold parse_status_code
    rw [firstFsCode_eq_some raw fsCodeMarkers i.1 i.2 c hsome
      (fun j hj hji =>
        parse_fs_http_code_of_find_none raw _
          (hothers ⟨j, hj⟩ (by intro hcontra; rw [Fin.ext_iff] at hcontra; simp at hcontra; omega)))]

/-- Witness for C2: a buffer carrying exactly the `CLIENT ERROR` marker
yields the code after that line's last comma. -/
theorem claim_c2_witness :
    parse_status_code (asciiBytes "FS@HTTP CLIENT ERROR CODE:1,404\r\n") = some 404 :=
  claim_c2_parse_status_code.2.2.2.1
    (asciiBytes "FS@HTTP CLIENT ERROR CODE:1,404\r\n") ⟨3, by decide⟩ 404
    (by decide) (by decide)

/-! ### Response body extraction (`types.rs`) -/

/-- Rust `u8::is_ascii_whitespace`: space, tab, LF, form feed, CR. -/
def isAsciiWhitespace (b : Nat) : Bool :=
  b == 32 || b == 9 || b == 10 || b == 12 || b == 13

/-- `types.rs::trim_ascii_whitespace`. -/
def trim_ascii_whitespace (data : List Nat) : List Nat :=
  ((data.dropWhile isAsciiWhitespace).reverse.dropWhile isAsciiWhitespace).reverse

/-- `u8::to_ascii_lowercase`. -/
def toLowerByte (b : Nat) : Nat := if 65 ≤ b ∧ b ≤ 90 then b + 32 else b

/-- `types.rs::eq_ascii_case_prefix`: case-insensitive test that `pfx` is
a prefix of `line`. -/
def eq_ascii_case_head (line pfx : List Nat) : Bool :=
  pfx.length ≤ line.length
    && ((line.take pfx.length).map toLowerByte == pfx.map toLowerByte)

def contentLengthBytes : List Nat := asciiBytes "Content-Length:"

/-- `usize` saturation bound of `parse_usize_from_prefix` (the crate
targets 32-bit ESP32 chips). -/
def satUsize (n : Nat) : Nat := min n (2 ^ 32 - 1)

/-- Scanning loop of `types.rs::parse_usize_from_prefix`. -/
def parseUsizeLoop : List Nat → Bool → Nat → Option Nat
  | [], started, value => if started then some value else none
  | b :: rest, started, value =>
      if isAsciiDigit b then
        parseUsizeLoop rest true (satUsize (satUsize (value * 10) + (b - 48)))
      else if started then some value
      else parseUsizeLoop rest started value

/-- `types.rs::parse_usize_from_prefix`. -/
def parse_usize_scan (data : List Nat) : Option Nat := parseUsizeLoop data false 0

/-- Line-walking loop of `types.rs::parse_content_length`.  Each iteration
strips one LF-terminated line, so the list length strictly decreases; the
recursion is driven by a fuel counter initialised to the length (plus one)
to keep it structural. -/
def contentLengthLoop : Nat → List Nat → Option Nat
  | 0, _ => none
  | _ + 1, [] => none
  | fuel + 1, hdr =>
      let lineEnd :=
        match hdr.findIdx? (fun b => b == 10) with
        | some p => p
        | none => hdr.length
      let line := hdr.take lineEnd
      if 15 ≤ line.length ∧ eq_ascii_case_head line contentLengthBytes then
        parse_usize_scan ((line.drop contentLengthBytes.length).dropWhile
          (fun b => b == 32 || b == 9))
      else contentLengthLoop fuel (hdr.drop (lineEnd + 1))

/-- `types.rs::parse_content_length`: walk the header section line by line
(lines split at LF); on the first line of length ≥ 15 whose start matches
`Content-Length:` case-insensitively, skip spaces/tabs and parse the
digits; otherwise `none`. -/
def parse_content_length (hdr : List Nat) : Option Nat :=
  contentLengthLoop (hdr.length + 1) hdr

/-- `types.rs::find_header_boundary`. -/
def find_header_boundary (http : List Nat) : Option (Nat × Nat) :=
  match find_subslice http crlfCrlf with
  | some idx => some (idx, 4)
  | none =>
      match find_subslice http lfLf with
      | some idx => some (idx, 2)
      | none => none

def crlfFsBytes : List Nat := asciiBytes "\r\nFS@"
def lfFsBytes : List Nat := asciiBytes "\nFS@"

/-- Per-marker body of the loop in `types.rs::extract_urc_style_body`:
find the marker, skip its trailing comma, the digit run and whitespace;
the body runs to the next `FS@` (preceded by a line break, or — searching
from one byte later — anywhere) or the end of the buffer, trimmed. -/
def urcBodyAt (raw marker : List Nat) : Option (List Nat) :=
  match find_subslice raw marker with
  | none => none
  | some idx =>
      let pos0 := idx + marker.length
      match (raw.drop pos0).findIdx? (fun b => b == 44) with
      | none => none
      | some commaRel =>
          let pos1 := pos0 + commaRel + 1
          let pos2 := pos1 + ((raw.drop pos1).takeWhile isAsciiDigit).length
          let pos := pos2 + ((raw.drop pos2).takeWhile
            (fun b => b == 32 || b == 9 || b == 13 || b == 10)).length
          if raw.length ≤ pos then none
          else
            let endPos :=
              match find_subslice (raw.drop pos) crlfFsBytes with
              | some rel => pos + rel
              | none =>
                  match find_subslice (raw.drop pos) lfFsBytes with
                  | some rel => pos + rel
                  | none =>
                      if pos + 1 < raw.length then
                        match find_subslice (raw.drop (pos + 1)) fsAtBytes with
                        | some rel => pos + 1 + rel
                        | none => raw.length
                      else raw.length
            let body := trim_ascii_whitespace ((raw.drop pos).take (endPos - pos))
            if body = [] ∨ fsAtBytes.isPrefixOf body then none
            else some body

/-- `types.rs::extract_urc_style_body`: try the five code markers in
order; `continue` on every failed extraction. -/
def extract_urc_style_body (raw : List Nat) : Option (List Nat) :=
  urcLoop raw fsCodeMarkers
where
  urcLoop (raw : List Nat) : List (List Nat) → Option (List Nat)
    | [] => none
    | m :: ms =>
        match urcBodyAt raw m with
        | some body => some body
        | none => urcLoop raw ms

/-- `http_body`'s fall-through after the `HTTP/1.` branch (types.rs lines
161-181): boundary search over the whole buffer, then URC-style
extraction. -/
def httpBodyFallback (raw : List Nat) : Option (List Nat) :=
  match find_subslice raw crlfCrlf with
  | some idx =>
      let body := raw.drop (idx + 4)
      if fsAtBytes.isPrefixOf body then none else some body
  | none =>
      match find_subslice raw lfLf with
      | some idx =>
          let body := raw.drop (idx + 2)
          if fsAtBytes.isPrefixOf body then none else some body
      | none => extract_urc_style_body raw

/-- `types.rs::HttpResponse`. -/
structure HttpResponse where
  status_code : Option Nat
  raw : List Nat
deriving DecidableEq

/-- `HttpResponse::is_success`: `matches!(status_code, Some(200..=299))`. -/
def HttpResponse.is_success (r : HttpResponse) : Bool :=
  match r.status_code with
  | some c => 200 ≤ c && c ≤ 299
  | none => false

/-- `HttpResponse::http_body`. -/
def HttpResponse.http_body (r : HttpResponse) : Option (List Nat) :=
  let raw := r.raw
  match find_subslice raw http1Bytes with
  | some httpIdx =>
      let http := raw.drop httpIdx
      match find_header_boundary http with
      | some (headerEnd, sepLen) =>
          let body := raw.drop (httpIdx + headerEnd + sepLen)
          if fsAtBytes.isPrefixOf body then none
          else
            match parse_content_length (http.take headerEnd) with
            | some contentLen =>
                if contentLen = 0 then some []
                else if contentLen ≤ body.length then some (body.take contentLen)
                else some body
            | none => if body = [] then none else some body
      | none => httpBodyFallback raw
  | none => httpBodyFallback raw

/-- C3: on a response whose buffer has an `HTTP/1.` status line followed
by a header/body boundary, `http_body` returns no body when the bytes
after the boundary start with `FS@`; an explicit empty body when
`Content-Length` declares 0; exactly the declared number of bytes when it
fits the available body bytes; and all available (truncated) body bytes
otherwise. -/
theorem claim_c3_http_body :
    ∀ (r : HttpResponse) (httpIdx headerEnd sepLen : Nat),
      find_subslice r.raw http1Bytes = some httpIdx →
      find_header_boundary (r.raw.drop httpIdx) = some (headerEnd, sepLen) →
      (fsAtBytes.isPrefixOf (r.raw.drop (httpIdx + headerEnd + sepLen)) = true →
          r.http_body = none)
      ∧ (fsAtBytes.isPrefixOf (r.raw.drop (httpIdx + headerEnd + sepLen)) = false →
          parse_content_length ((r.raw.drop httpIdx).take headerEnd) = some 0 →
          r.http_body = some [])
      ∧ (∀ n : Nat,
          fsAtBytes.isPrefixOf (r.raw.drop (httpIdx + headerEnd + sepLen)) = false →
          parse_content_length ((r.raw.drop httpIdx).take headerEnd) = some n →
          n ≤ (r.raw.drop (httpIdx + headerEnd + sepLen)).length →
          r.http_body = some ((r.raw.drop (httpIdx + headerEnd + sepLen)).take n))
      ∧ (∀ n : Nat,
          fsAtBytes.isPrefixOf (r.raw.drop (httpIdx + headerEnd + sepLen)) = false →
          parse_content_length ((r.raw.drop httpIdx).take headerEnd) = some n →
          (r.raw.drop (httpIdx + headerEnd + sepLen)).length < n →
          r.http_body = some (r.raw.drop (httpIdx + headerEnd + sepLen))) := by
  intro r httpIdx headerEnd sepLen hfind hbound
  refine ⟨?_, ?_, ?_, ?_⟩
  · intro hfs
    simp only [HttpResponse.http_body, hfind, hbound, hfs, if_true]
  · intro hfs hcl
    simp only [HttpResponse.http_body, hfind, hbound, hfs, Bool.false_eq_true, if_false, hcl,
      if_true]
  · intro n hfs hcl hle
    simp only [HttpResponse.http_body, hfind, hbound, hfs, Bool.false_eq_true, if_false, hcl]
    match n with
    | 0 => simp
    | n + 1 =>
        have hne : ¬(n + 1 = 0) := by omega
        simp only [hne, if_false, hle, if_true]
  · intro n hfs hcl hlt
    simp only [HttpResponse.http_body, hfind, hbound, hfs, Bool.false_eq_true, if_false, hcl]
    have hne : ¬(n = 0) := by omega
    have hnle : ¬(n ≤ (r.raw.drop (httpIdx + headerEnd + sepLen)).length) := by omega
    simp only [hne, if_false, hnle]

/-- Witness for C3: a 200 response declaring `Content-Length: 2` over four
available body bytes yields exactly the first two body bytes. -/
theorem claim_c3_witness :
    (HttpResponse.mk (some 200)
        (asciiBytes "HTTP/1.1 200 OK\r\nContent-Length: 2\r\n\r\nabcd")).http_body =
      some (((HttpResponse.mk (some 200)
        (asciiBytes "HTTP/1.1 200 OK\r\nContent-Length: 2\r\n\r\nabcd")).raw.drop
          (0 + 34 + 4)).take 2) :=
  ((claim_c3_http_body
      (HttpResponse.mk (some 200)
        (asciiBytes "HTTP/1.1 200 OK\r\nContent-Length: 2\r\n\r\nabcd"))
      0 34 4 (by decide) (by decide)).2.2.1 2 (by decide) (by decide) (by decide))

/-- `HttpResponse::declared_content_length`. -/
def HttpResponse.declared_content_length (r : HttpResponse) : Option Nat :=
  match find_subslice r.raw http1Bytes with
  | none => none
  | some httpIdx =>
      let http := r.raw.drop httpIdx
      match find_header_boundary http with
      | none => none
      | some (headerEnd, _) => parse_content_length (http.take headerEnd)

/-! ### Error model (`types.rs::DtuAtError`) -/

/-- `types.rs::DtuAtError`.  The opaque UART `IoError` payload is modelled
as a `Nat` tag; the `HttpFail` code (`u8`) likewise. -/
inductive DtuAtError
  | Transport (e : Nat)
  | Timeout
  | WriteZero
  | InvalidConfig (msg : String)
  | AtRejected
  | BadResponse
  | ResponseTooLarge
  | BodyMissing
  | HttpFail (code : Nat)
deriving DecidableEq

/-- The body-required policy step at the end of `client.rs::request`
(lines 247-266).  `allowEmptyBody` mirrors
`matches!(resp.status_code, Some(204 | 304))`; on a policy violation the
response is dropped and `BodyMissing` returned. -/
def enforce_body_policy (requireBody : Bool) (resp : HttpResponse) :
    Except DtuAtError HttpResponse :=
  let allowEmptyBody : Bool :=
    resp.status_code == some 204 || resp.status_code == some 304
  if requireBody && resp.is_success && !allowEmptyBody then
    let bodyMissing : Bool :=
      match resp.http_body with
      | some body => body.isEmpty
      | none => true
    if bodyMissing then .error .BodyMissing else .ok resp
  else .ok resp

/-- C4: the policy step fails with `BodyMissing` (and discards the
response) exactly when the body-required flag is set, the status is in
200..=299 but neither 204 nor 304, and the parsed body is absent or
empty; on every other input the response itself is returned. -/
theorem claim_c4_body_missing :
    ∀ (requireBody : Bool) (resp : HttpResponse),
      (enforce_body_policy requireBody resp = .error .BodyMissing ↔
        (requireBody = true ∧
          (∃ c, resp.status_code = some c ∧ 200 ≤ c ∧ c ≤ 299 ∧ c ≠ 204 ∧ c ≠ 304) ∧
          (resp.http_body = none ∨ resp.http_body = some [])))
      ∧ (enforce_body_policy requireBody resp = .error .BodyMissing ∨
          enforce_body_policy requireBody resp = .ok resp) := by
  intro requireBody resp
  constructor
  · unfold enforce_body_policy
    simp only []
    split
    · rename_i hcond
      rw [Bool.and_eq_true, Bool.and_eq_true] at hcond
      obtain ⟨⟨hreq, hsucc⟩, hallow⟩ := hcond
      split
      · rename_i hbody
        simp only [true_iff]
        refine ⟨hreq, ?_, ?_⟩
        · unfold HttpResponse.is_success at hsucc
          cases hs : resp.status_code with
          | none => rw [hs] at hsucc; exact absurd hsucc (by simp)
          | some c =>
              rw [hs] at hsucc
              rw [Bool.and_eq_true, decide_eq_true_eq, decide_eq_true_eq] at hsucc
              rw [hs] at hallow
              rw [Bool.not_eq_eq_eq_not, Bool.not_true, Bool.or_eq_false_iff] at hallow
              refine ⟨c, rfl, hsucc.1, hsucc.2, ?_, ?_⟩
              · intro hc
                rw [hc] at hallow
                exact absurd hallow.1 (by simp)
              · intro hc
                rw [hc] at hallow
                exact absurd hallow.2 (by simp)
        · cases hb : resp.http_body with
          | none => exact Or.inl rfl
          | some body =>
              rw [hb] at hbody
              exact Or.inr (by rw [List.isEmpty_iff] at hbody; rw [hbody])
      · rename_i hbody
        simp only [iff_def]
        constructor
        · intro h
          exact absurd h (by simp)
        · rintro ⟨-, -, (hb | hb)⟩ <;> rw [hb] at hbody <;> simp at hbody
    · rename_i hcond
      simp only [iff_def]
      constructor
      · intro h
        exact absurd h (by simp)
      · rintro ⟨hreq, ⟨c, hs, h200, h299, h204, h304⟩, -⟩
        apply absurd _ hcond
        rw [Bool.and_eq_true, Bool.and_eq_true]
        refine ⟨⟨hreq, ?_⟩, ?_⟩
        · unfold HttpResponse.is_success
          rw [hs]
          simp only [Bool.and_eq_true, decide_eq_true_eq]
          exact ⟨h200, h299⟩
        · rw [hs]
          rw [Bool.not_eq_eq_eq_not, Bool.not_true, Bool.or_eq_false_iff]
          constructor
          · rw [beq_eq_false_iff_ne]
            simp only [ne_eq, Option.some.injEq]
            exact h204
          · rw [beq_eq_false_iff_ne]
            simp only [ne_eq, Option.some.injEq]
            exact h304
  · simp only [enforce_body_policy]
    by_cases hcond : (requireBody && resp.is_success &&
        !(resp.status_code == some 204 || resp.status_code == some 304)) = true
    · rw [if_pos hcond]
      by_cases hbody : (match resp.http_body with
          | some body => body.isEmpty
          | none => true) = true
      · rw [if_pos hbody]
        exact Or.inl rfl
      · rw [if_neg hbody]
        exact Or.inr rfl
    · rw [if_neg hcond]
      exact Or.inr rfl

/-- Witness for C4: a 200 response whose body is absent fails the policy
with `BodyMissing`. -/
theorem claim_c4_witness :
    enforce_body_policy true (HttpResponse.mk (some 200) []) = .error .BodyMissing :=
  (claim_c4_body_missing true (HttpResponse.mk (some 200) [])).1.mpr
    ⟨rfl, ⟨200, rfl, by omega, by omega, by omega, by omega⟩, Or.inl (by decide)⟩

/-! ### Header-line encoding (`parser.rs::build_head_line`) -/

/-- `types.rs::HttpHeader`, with name/value as byte lists. -/
structure HttpHeader where
  name : List Nat
  value : List Nat
deriving DecidableEq

/-- The literal escape token `[0D][0A]` standing in for CRLF. -/
def crlfTok : List Nat := asciiBytes "[0D][0A]"
def colonSpace : List Nat := asciiBytes ": "
def authBearer : List Nat := asciiBytes "Authorization: Bearer "

/-- The header loop and bearer-token step of `parser.rs::build_head_line`,
with the output string and the `first` flag as explicit state. -/
def buildHeadCore : List HttpHeader → Option (List Nat) → List Nat → Bool →
    Except String (List Nat)
  | [], bearer, out, first =>
      match bearer with
      | some token =>
          .ok ((if first then out else out ++ crlfTok) ++ authBearer ++ token)
      | none => .ok out
  | h :: t, bearer, out, first =>
      if h.name = [] then .error "header name must not be empty"
      else
        buildHeadCore t bearer
          ((if first then out else out ++ crlfTok) ++ h.name ++ colonSpace ++ h.value)
          false

/-- `parser.rs::build_head_line`: encode the header list and optional
bearer token, append a trailing `[0D][0A]` when non-empty, and reject an
encoding longer than 256 bytes. -/
def build_head_line (headers : List HttpHeader) (bearer : Option (List Nat)) :
    Except String (List Nat) :=
  if headers = [] ∧ bearer = none then .ok []
  else
    match buildHeadCore headers bearer [] true with
    | .error e => .error e
    | .ok out =>
        let out := if out ≠ [] then out ++ crlfTok else out
        if 256 < out.length then .error "HTTP header exceeds AT+HTPHD 256-byte limit"
        else .ok out

instance {ε α : Type} [DecidableEq ε] [DecidableEq α] : DecidableEq (Except ε α) :=
  fun a b =>
    match a, b with
    | .ok x, .ok y =>
        if h : x = y then isTrue (h ▸ rfl) else isFalse (fun hc => h (Except.ok.inj hc))
    | .error x, .error y =>
        if h : x = y then isTrue (h ▸ rfl) else isFalse (fun hc => h (Except.error.inj hc))
    | .ok _, .error _ => isFalse (fun hc => Except.noConfusion hc)
    | .error _, .ok _ => isFalse (fun hc => Except.noConfusion hc)

/-- One rendered header pair, `name: value`. -/
def headItem (h : HttpHeader) : List Nat := h.name ++ colonSpace ++ h.value

/-- What the loop contributes after the first item: each further item
preceded by the `[0D][0A]` separator. -/
def tailJoin (t : List HttpHeader) (bearer : Option (List Nat)) : List Nat :=
  (t.map (fun h => crlfTok ++ headItem h)).flatten ++
    (match bearer with
     | some token => crlfTok ++ authBearer ++ token
     | none => [])

/-- The full encoding before the trailing separator. -/
def joinedHead (headers : List HttpHeader) (bearer : Option (List Nat)) : List Nat :=
  match headers with
  | [] =>
      match bearer with
      | some token => authBearer ++ token
      | none => []
  | h :: t => headItem h ++ tailJoin t bearer

/-- Modelled from the spec's words for comparison (refinement): the
`name: value` items (with `Authorization: Bearer <token>` last), joined
by the literal `[0D][0A]` token and terminated by one trailing `[0D][0A]`
when non-empty. -/
def headLineSpec (headers : List HttpHeader) (bearer : Option (List Nat)) : List Nat :=
  let items := headers.map headItem ++
    (match bearer with
     | some token => [authBearer ++ token]
     | none => [])
  match items with
  | [] => []
  | x :: xs => x ++ (xs.map (fun y => crlfTok ++ y)).flatten ++ crlfTok

theorem buildHeadCore_false (bearer : Option (List Nat)) :
    ∀ (t : List HttpHeader) (out : List Nat), (∀ h ∈ t, h.name ≠ []) →
      buildHeadCore t bearer out false = .ok (out ++ tailJoin t bearer) := by
  intro t
  induction t with
  | nil =>
      intro out _
      cases bearer with
      | none => simp [buildHeadCore, tailJoin]
      | some token => simp [buildHeadCore, tailJoin]
  | cons h t ih =>
      intro out hnames
      have hname : h.name ≠ [] := hnames h (List.mem_cons_self h t)
      simp only [buildHeadCore, hname, if_false]
      rw [ih _ (fun h' hh' => hnames h' (List.mem_cons_of_mem h hh'))]
      simp [tailJoin, headItem, List.append_assoc]

theorem buildHeadCore_true (headers : List HttpHeader) (bearer : Option (List Nat))
    (hnames : ∀ h ∈ headers, h.name ≠ []) :
    buildHeadCore headers bearer [] true = .ok (joinedHead headers bearer) := by
  cases headers with
  | nil =>
      cases bearer with
      | none => simp [buildHeadCore, joinedHead]
      | some token => simp [buildHeadCore, joinedHead]
  | cons h t =>
      have hname : h.name ≠ [] := hnames h (List.mem_cons_self h t)
      simp only [buildHeadCore, hname, if_false, if_true]
      rw [buildHeadCore_false bearer t _ (fun h' hh' => hnames h' (List.mem_cons_of_mem h hh'))]
      simp [joinedHead, headItem, List.append_assoc]

theorem headLineSpec_eq_joined (headers : List HttpHeader) (bearer : Option (List Nat))
    (hne : ¬(headers = [] ∧ bearer = none)) :
    headLineSpec headers bearer = joinedHead headers bearer ++ crlfTok := by
  cases headers with
  | nil =>
      cases bearer with
      | none => exact absurd ⟨rfl, rfl⟩ hne
      | some token => simp [headLineSpec, joinedHead]
  | cons h t =>
      cases bearer with
      | none =>
          simp [headLineSpec, joinedHead, tailJoin, List.map_map, Function.comp_def,
            List.append_assoc]
      | some token =>
          simp [headLineSpec, joinedHead, tailJoin, List.map_map, Function.comp_def,
            List.flatten_append, List.append_assoc]

theorem joinedHead_ne_nil (headers : List HttpHeader) (bearer : Option (List Nat))
    (hnames : ∀ h ∈ headers, h.name ≠ []) (hne : ¬(headers = [] ∧ bearer = none)) :
    joinedHead headers bearer ≠ [] := by
  cases headers with
  | nil =>
      cases bearer with
      | none => exact absurd ⟨rfl, rfl⟩ hne
      | some token => simp [joinedHead, authBearer, asciiBytes]
  | cons h t =>
      have hname : h.name ≠ [] := hnames h (List.mem_cons_self h t)
      simp only [joinedHead, headItem]
      intro hcontra
      simp only [List.append_eq_nil] at hcontra
      exact hname hcontra.1.1.1

/-- C6: with no empty header name, `build_head_line` produces exactly the
`[0D][0A]`-joined encoding (bearer token rendered last, one trailing
token when non-empty) unless that encoding exceeds 256 bytes, in which
case it fails; an empty header name always fails; and the concrete
single-header example encodes exactly as the spec shows. -/
theorem claim_c6_build_head_line :
    (∀ (headers : List HttpHeader) (bearer : Option (List Nat)),
        (∀ h ∈ headers, h.name ≠ []) →
        build_head_line headers bearer =
          (if 256 < (headLineSpec headers bearer).length then
            .error "HTTP header exceeds AT+HTPHD 256-byte limit"
          else .ok (headLineSpec headers bearer)))
    ∧ (∀ (headers : List HttpHeader) (bearer : Option (List Nat)),
        (∃ h ∈ headers, h.name = []) →
        ∃ msg, build_head_line headers bearer = .error msg)
    ∧ build_head_line
        [HttpHeader.mk (asciiBytes "Content-Type") (asciiBytes "application/json")] none
        = .ok (asciiBytes "Content-Type: application/json[0D][0A]")
    ∧ (∃ msg,
        build_head_line [HttpHeader.mk (asciiBytes "A") (List.replicate 300 97)] none
          = .error msg) := by
  refine ⟨?_, ?_, by decide, ?_⟩
  · intro headers bearer hnames
    unfold build_head_line
    by_cases hempty : headers = [] ∧ bearer = none
    · obtain ⟨h1, h2⟩ := hempty
      subst h1; subst h2
      rw [if_pos ⟨rfl, rfl⟩]
      simp [headLineSpec]
    · rw [if_neg hempty, buildHeadCore_true headers bearer hnames]
      simp only []
      rw [if_pos (joinedHead_ne_nil headers bearer hnames hempty),
        headLineSpec_eq_joined headers bearer hempty]
  · intro headers bearer hex
    obtain ⟨h0, hmem, hname⟩ := hex
    have hne : ¬(headers = [] ∧ bearer = none) := by
      rintro ⟨h1, -⟩
      rw [h1] at hmem
      exact absurd hmem (List.not_mem_nil h0)
    unfold build_head_line
    rw [if_neg hne]
    have : ∀ (t : List HttpHeader) (out : List Nat) (first : Bool),
        h0 ∈ t → h0.name = [] →
        ∃ msg, buildHeadCore t bearer out first = .error msg := by
      intro t
      induction t with
      | nil => intro _ _ hmem'; exact absurd hmem' (List.not_mem_nil h0)
      | cons h' t' ih =>
          intro out first hmem' hname'
          by_cases hh : h'.name = []
          · exact ⟨"header name must not be empty", by simp [buildHeadCore, hh]⟩
          · rcases List.mem_cons.mp hmem' with heq | hmem''
            · rw [← heq] at hh; exact absurd hname' hh
            · obtain ⟨msg, hmsg⟩ := ih _ false hmem'' hname'
              exact ⟨msg, by simp only [buildHeadCore, hh, if_false]; exact hmsg⟩
    obtain ⟨msg, hmsg⟩ := this headers [] true hmem hname
    rw [hmsg]
    exact ⟨msg, rfl⟩
  · exact ⟨"HTTP header exceeds AT+HTPHD 256-byte limit",
      by set_option maxRecDepth 8000 in decide⟩

/-- Witness for C6: the single-header no-bearer case is under the length
cap and therefore succeeds with the joined encoding. -/
theorem claim_c6_witness :
    build_head_line
        [HttpHeader.mk (asciiBytes "X-A") (asciiBytes "1"),
         HttpHeader.mk (asciiBytes "X-B") (asciiBytes "2")] none =
      .ok (headLineSpec
        [HttpHeader.mk (asciiBytes "X-A") (asciiBytes "1"),
         HttpHeader.mk (asciiBytes "X-B") (asciiBytes "2")] none) := by
  have h := claim_c6_build_head_line.1
    [HttpHeader.mk (asciiBytes "X-A") (asciiBytes "1"),
     HttpHeader.mk (asciiBytes "X-B") (asciiBytes "2")] none (by decide)
  rw [h]
  decide

/-! ### Transport model and the idle-gap framer (`client.rs`) -/

/-- One read interaction with the UART transport: a successful read of
`chunk` bytes, a `with_timeout` expiry, or an I/O error.  A read returning
0 bytes (stream closed) is `data []`. -/
inductive ReadEvent
  | data (chunk : List Nat)
  | timeout
  | ioErr (e : Nat)
deriving DecidableEq

/-- `client.rs::read_until_idle_impl` over an event trace, returning the
result together with the unconsumed rest of the trace (an exhausted trace
reads as a timeout).  `out` is the accumulated buffer and `gotAny` the
`got_any` flag selecting the first-byte versus idle timeout. -/
def readUntilIdleAux (maxLen : Nat) : List ReadEvent → List Nat → Bool →
    Except DtuAtError (List Nat) × List ReadEvent
  | [], out, gotAny => if gotAny then (.ok out, []) else (.error .Timeout, [])
  | .timeout :: rest, out, gotAny =>
      if gotAny then (.ok out, rest) else (.error .Timeout, rest)
  | .ioErr e :: rest, _, _ => (.error (.Transport e), rest)
  | .data c :: rest, out, _ =>
      if c = [] then (.ok out, rest)
      else if maxLen < out.length + c.length then (.error .ResponseTooLarge, rest)
      else readUntilIdleAux maxLen rest (out ++ c) true

/-- `client.rs::read_until_idle_impl` as called: fresh buffer, result
only.  The `log_first_timeout` flag only selects a diagnostic log line
and never affects the result. -/
def read_until_idle_impl (maxLen : Nat) (events : List ReadEvent)
    (logFirstTimeout : Bool) : Except DtuAtError (List Nat) :=
  (readUntilIdleAux maxLen events [] false).1

/-- On success the framer's buffer never exceeds the cap (accumulator
invariant). -/
theorem readUntilIdleAux_ok_length (maxLen : Nat) :
    ∀ (events : List ReadEvent) (out : List Nat) (gotAny : Bool)
      (buf : List Nat) (rest : List ReadEvent),
      out.length ≤ maxLen →
      readUntilIdleAux maxLen events out gotAny = (.ok buf, rest) →
      buf.length ≤ maxLen := by
  intro events
  induction events with
  | nil =>
      intro out gotAny buf rest hout h
      simp only [readUntilIdleAux] at h
      cases gotAny with
      | true => simp at h; rw [← h.1]; exact hout
      | false => simp at h
  | cons ev rest' ih =>
      intro out gotAny buf rest hout h
      cases ev with
      | timeout =>
          simp only [readUntilIdleAux] at h
          cases gotAny with
          | true => simp at h; rw [← h.1]; exact hout
          | false => simp at h
      | ioErr e => simp [readUntilIdleAux] at h
      | data c =>
          simp only [readUntilIdleAux] at h
          by_cases hc : c = []
          · rw [if_pos hc] at h
            simp at h
            rw [← h.1]
            exact hout
          · rw [if_neg hc] at h
            by_cases hcap : maxLen < out.length + c.length
            · rw [if_pos hcap] at h; simp at h
            · rw [if_neg hcap] at h
              exact ih (out ++ c) true buf rest (by simp; omega) h

/-- Every framer error is a timeout, a transport error, or the length
cap. -/
theorem readUntilIdleAux_error_cases (maxLen : Nat) :
    ∀ (events : List ReadEvent) (out : List Nat) (gotAny : Bool)
      (e : DtuAtError) (rest : List ReadEvent),
      readUntilIdleAux maxLen events out gotAny = (.error e, rest) →
      e = .Timeout ∨ (∃ io, e = .Transport io) ∨ e = .ResponseTooLarge := by
  intro events
  induction events with
  | nil =>
      intro out gotAny e rest h
      simp only [readUntilIdleAux] at h
      cases gotAny with
      | true => simp at h
      | false => simp at h; exact Or.inl h.1.symm
  | cons ev rest' ih =>
      intro out gotAny e rest h
      cases ev with
      | timeout =>
          simp only [readUntilIdleAux] at h
          cases gotAny with
          | true => simp at h
          | false => simp at h; exact Or.inl h.1.symm
      | ioErr io =>
          simp only [readUntilIdleAux] at h
          simp at h
          exact Or.inr (Or.inl ⟨io, h.1.symm⟩)
      | data c =>
          simp only [readUntilIdleAux] at h
          by_cases hc : c = []
          · rw [if_pos hc] at h; simp at h
          · rw [if_neg hc] at h
            by_cases hcap : maxLen < out.length + c.length
            · rw [if_pos hcap] at h
              simp at h
              exact Or.inr (Or.inr h.1.symm)
            · rw [if_neg hcap] at h
              exact ih (out ++ c) true e rest h

/-- `u8::saturating_add(1)` on the follow-up collector's miss counter. -/
def satAdd8 (n : Nat) : Nat := min (n + 1) 255

/-- Poll loop of `client.rs::collect_followup_http_data`.  `fuel` counts
the remaining poll windows before the overall deadline; `raw` is the
accumulated response, `streak` the timeout streak, `appended` and
`gotNonUrc` the corresponding flags. -/
def collectFollowupLoop (maxLen : Nat) :
    Nat → List ReadEvent → List Nat → Nat → Bool → Bool →
    Except DtuAtError (List Nat)
  | 0, _, raw, _, _, _ => .ok raw
  | fuel + 1, events, raw, streak, appended, gotNonUrc =>
      match readUntilIdleAux maxLen events [] false with
      | (.error .Timeout, rest) =>
          let streak' := satAdd8 streak
          if decide (1 ≤ streak') && (appended || gotNonUrc) then .ok raw
          else collectFollowupLoop maxLen fuel rest raw streak' appended gotNonUrc
      | (.error e, _) => .error e
      | (.ok chunk, rest) =>
          if chunk = [] then
            let streak' := satAdd8 streak
            if decide (1 ≤ streak') && (appended || gotNonUrc) then .ok raw
            else collectFollowupLoop maxLen fuel rest raw streak' appended gotNonUrc
          else
            let nonUrc := !(fsAtBytes.isPrefixOf chunk)
            let gotNonUrc' := gotNonUrc || nonUrc
            if maxLen < raw.length + chunk.length then .error .ResponseTooLarge
            else
              let raw' := raw ++ chunk
              if nonUrc then .ok raw'
              else collectFollowupLoop maxLen fuel rest raw' 0 true gotNonUrc'

/-- `client.rs::collect_followup_http_data` as entered from `request`:
fresh flags over the primary buffer `raw`. -/
def collect_followup_http_data (maxLen fuel : Nat) (events : List ReadEvent)
    (raw : List Nat) : Except DtuAtError (List Nat) :=
  collectFollowupLoop maxLen fuel events raw 0 false false

theorem collectFollowupLoop_ok_length (maxLen : Nat) :
    ∀ (fuel : Nat) (events : List ReadEvent) (raw : List Nat) (streak : Nat)
      (appended gotNonUrc : Bool) (out : List Nat),
      raw.length ≤ maxLen →
      collectFollowupLoop maxLen fuel events raw streak appended gotNonUrc = .ok out →
      out.length ≤ maxLen := by
  intro fuel
  induction fuel with
  | zero =>
      intro events raw streak appended gotNonUrc out hraw h
      simp only [collectFollowupLoop] at h
      rw [← Except.ok.inj h]
      exact hraw
  | succ fuel ih =>
      intro events raw streak appended gotNonUrc out hraw h
      simp only [collectFollowupLoop] at h
      rcases hread : readUntilIdleAux maxLen events [] false with ⟨res, rest⟩
      rw [hread] at h
      match res with
      | .error .Timeout =>
          simp only [] at h
          by_cases hstop : (decide (1 ≤ satAdd8 streak) && (appended || gotNonUrc)) = true
          · rw [if_pos hstop] at h
            rw [← Except.ok.inj h]
            exact hraw
          · rw [if_neg hstop] at h
            exact ih rest raw _ appended gotNonUrc out hraw h
      | .error (.Transport io) => simp at h
      | .error .WriteZero => simp at h
      | .error (.InvalidConfig m) => simp at h
      | .error .AtRejected => simp at h
      | .error .BadResponse => simp at h
      | .error .ResponseTooLarge => simp at h
      | .error .BodyMissing => simp at h
      | .error (.HttpFail c) => simp at h
      | .ok chunk =>
          simp only [] at h
          by_cases hc : chunk = []
          · rw [if_pos hc] at h
            by_cases hstop : (decide (1 ≤ satAdd8 streak) && (appended || gotNonUrc)) = true
            · rw [if_pos hstop] at h
              rw [← Except.ok.inj h]
              exact hraw
            · rw [if_neg hstop] at h
              exact ih rest raw _ appended gotNonUrc out hraw h
          · rw [if_neg hc] at h
            by_cases hcap : maxLen < raw.length + chunk.length
            · rw [if_pos hcap] at h
              simp at h
            · rw [if_neg hcap] at h
              by_cases hurc : (!(fsAtBytes.isPrefixOf chunk)) = true
              · rw [if_pos hurc] at h
                rw [← Except.ok.inj h]
                simp
                omega
              · rw [if_neg hurc] at h
                exact ih rest (raw ++ chunk) 0 true _ out (by simp; omega) h

/-- C1: the framer and the follow-up collector never yield a buffer over
`max_response_len`; a nonempty chunk whose addition would exceed the cap
makes either loop fail with `ResponseTooLarge` instead of truncating. -/
theorem claim_c1_buffer_cap :
    (∀ (maxLen : Nat) (events : List ReadEvent) (buf : List Nat)
        (rest : List ReadEvent),
        readUntilIdleAux maxLen events [] false = (.ok buf, rest) →
        buf.length ≤ maxLen)
    ∧ (∀ (maxLen : Nat) (c : List Nat) (rest : List ReadEvent) (out : List Nat)
        (gotAny : Bool),
        c ≠ [] → maxLen < out.length + c.length →
        readUntilIdleAux maxLen (.data c :: rest) out gotAny =
          (.error .ResponseTooLarge, rest))
    ∧ (∀ (maxLen fuel : Nat) (events : List ReadEvent) (raw out : List Nat),
        raw.length ≤ maxLen →
        collect_followup_http_data maxLen fuel events raw = .ok out →
        out.length ≤ maxLen)
    ∧ (∀ (maxLen fuel : Nat) (events : List ReadEvent) (raw chunk : List Nat)
        (rest : List ReadEvent) (streak : Nat) (appended gotNonUrc : Bool),
        readUntilIdleAux maxLen events [] false = (.ok chunk, rest) →
        chunk ≠ [] → maxLen < raw.length + chunk.length →
        collectFollowupLoop maxLen (fuel + 1) events raw streak appended gotNonUrc =
          .error .ResponseTooLarge) := by
  refine ⟨?_, ?_, ?_, ?_⟩
  · intro maxLen events buf rest h
    exact readUntilIdleAux_ok_length maxLen events [] false buf rest (by simp) h
  · intro maxLen c rest out gotAny hc hcap
    simp only [readUntilIdleAux]
    rw [if_neg hc, if_pos hcap]
  · intro maxLen fuel events raw out hraw h
    exact collectFollowupLoop_ok_length maxLen fuel events raw 0 false false out hraw h
  · intro maxLen fuel events raw chunk rest streak appended gotNonUrc hread hc hcap
    simp only [collectFollowupLoop, hread]
    rw [if_neg hc, if_pos hcap]

/-- Witness for C1: a 3-byte burst against a cap of 2 fails with
`ResponseTooLarge`; within the cap the collected buffers stay short. -/
theorem claim_c1_witness :
    ([1, 2] : List Nat).length ≤ 4 ∧
    readUntilIdleAux 2 [.data [1, 2, 3]] [] false = (.error .ResponseTooLarge, []) ∧
    collectFollowupLoop 2 1 [.data [1], .timeout] [9, 9] 0 false false =
      .error .ResponseTooLarge :=
  ⟨claim_c1_buffer_cap.1 4 [.data [1, 2], .timeout] [1, 2] [] (by decide),
   claim_c1_buffer_cap.2.1 2 [1, 2, 3] [] [] false (by decide) (by decide),
   claim_c1_buffer_cap.2.2.2 2 0 [.data [1], .timeout] [9, 9] [1] [] 0 false false
     (by decide) (by decide) (by decide)⟩

/-! ### Primary-response framing with one payload-resend retry
(`client.rs::request`, lines 207-237) -/

/-- The payload-send / primary-framing step of `request`: send the
payload, frame the response with the HTTP-phase timeouts; on `Timeout`
with the retry flag set, resend the payload once and frame once more.
`send1`/`send2` are the outcomes of the two possible `send_payload` calls;
the second component counts how many `send_payload` calls were made. -/
def http_frame_with_retry (maxLen : Nat) (retryFlag : Bool)
    (send1 send2 : Except DtuAtError Unit) (events : List ReadEvent) :
    Except DtuAtError (List Nat) × Nat :=
  match send1 with
  | .error e => (.error e, 1)
  | .ok _ =>
      match readUntilIdleAux maxLen events [] false with
      | (.ok raw, _) => (.ok raw, 1)
      | (.error .Timeout, rest) =>
          if retryFlag then
            match send2 with
            | .error e => (.error e, 2)
            | .ok _ => ((readUntilIdleAux maxLen rest [] false).1, 2)
          else (.error .Timeout, 1)
      | (.error e, _) => (.error e, 1)

/-- C7: the payload is sent at most twice (resent at most once), and
exactly twice iff the first framing timed out with the retry flag set; a
non-Timeout first error, a Timeout with the flag unset, and any outcome
of the retried framing all propagate; a successful first framing is
returned with a single send. -/
theorem claim_c7_payload_retry :
    ∀ (maxLen : Nat) (retryFlag : Bool) (send1 send2 : Except DtuAtError Unit)
      (events : List ReadEvent),
      ((http_frame_with_retry maxLen retryFlag send1 send2 events).2 ≤ 2)
      ∧ ((http_frame_with_retry maxLen retryFlag send1 send2 events).2 = 2 ↔
          (send1 = .ok () ∧
            (readUntilIdleAux maxLen events [] false).1 = .error .Timeout ∧
            retryFlag = true))
      ∧ (∀ e : DtuAtError, send1 = .ok () →
          (readUntilIdleAux maxLen events [] false).1 = .error e → e ≠ .Timeout →
          http_frame_with_retry maxLen retryFlag send1 send2 events = (.error e, 1))
      ∧ (send1 = .ok () →
          (readUntilIdleAux maxLen events [] false).1 = .error .Timeout →
          retryFlag = false →
          http_frame_with_retry maxLen retryFlag send1 send2 events =
            (.error .Timeout, 1))
      ∧ (∀ rest : List ReadEvent, send1 = .ok () →
          readUntilIdleAux maxLen events [] false = (.error .Timeout, rest) →
          retryFlag = true → send2 = .ok () →
          http_frame_with_retry maxLen retryFlag send1 send2 events =
            ((readUntilIdleAux maxLen rest [] false).1, 2))
      ∧ (∀ (raw : List Nat) (rest : List ReadEvent), send1 = .ok () →
          readUntilIdleAux maxLen events [] false = (.ok raw, rest) →
          http_frame_with_retry maxLen retryFlag send1 send2 events = (.ok raw, 1)) := by
  intro maxLen retryFlag send1 send2 events
  rcases hread : readUntilIdleAux maxLen events [] false with ⟨res, rest0⟩
  refine ⟨?_, ?_, ?_, ?_, ?_, ?_⟩
  · unfold http_frame_with_retry
    cases send1 with
    | error e => simp
    | ok u =>
        rw [hread]
        match res with
        | .ok raw => simp
        | .error .Timeout =>
            simp only []
            cases retryFlag with
            | false => simp
            | true =>
                rw [if_pos rfl]
                cases send2 with
                | error e => simp
                | ok _ => simp
        | .error (.Transport io) => simp
        | .error .WriteZero => simp
        | .error (.InvalidConfig m) => simp
        | .error .AtRejected => simp
        | .error .BadResponse => simp
        | .error .ResponseTooLarge => simp
        | .error .BodyMissing => simp
        | .error (.HttpFail c) => simp
  · unfold http_frame_with_retry
    cases send1 with
    | error e => simp
    | ok u =>
        rw [hread]
        cases u
        match res with
        | .ok raw => simp
        | .error .Timeout =>
            simp only []
            cases retryFlag with
            | false => simp
            | true =>
                rw [if_pos rfl]
                cases send2 with
                | error e => simp
                | ok _ => simp
        | .error (.Transport io) => simp
        | .error .WriteZero => simp
        | .error (.InvalidConfig m) => simp
        | .error .AtRejected => simp
        | .error .BadResponse => simp
        | .error .ResponseTooLarge => simp
        | .error .BodyMissing => simp
        | .error (.HttpFail c) => simp
  · intro e hs1 herr hne
    subst hs1
    unfold http_frame_with_retry
    rw [hread]
    simp only [] at herr
    subst herr
    match e, hne with
    | .Transport io, _ => simp
    | .WriteZero, _ => simp
    | .InvalidConfig m, _ => simp
    | .AtRejected, _ => simp
    | .BadResponse, _ => simp
    | .ResponseTooLarge, _ => simp
    | .BodyMissing, _ => simp
    | .HttpFail c, _ => simp
    | .Timeout, hne => exact absurd rfl hne
  · intro hs1 herr hflag
    subst hs1; subst hflag
    unfold http_frame_with_retry
    rw [hread]
    simp only [] at herr
    subst herr
    simp
  · intro rest hs1 hto hflag hs2
    subst hs1; subst hflag; subst hs2
    have h1 : res = .error .Timeout := congrArg Prod.fst hto
    have h2 : rest0 = rest := congrArg Prod.snd hto
    subst h1; subst h2
    unfold http_frame_with_retry
    rw [hread]
    simp
  · intro raw rest hs1 hok
    subst hs1
    have h1 : res = .ok raw := congrArg Prod.fst hok
    have h2 : rest0 = rest := congrArg Prod.snd hok
    subst h1; subst h2
    unfold http_frame_with_retry
    rw [hread]

/-- Witness for C7: a first-framing timeout with the retry flag set
resends once and returns the retried framing's result. -/
theorem claim_c7_witness :
    http_frame_with_retry 8 true (.ok ()) (.ok ()) [.timeout, .data [65], .timeout] =
      ((readUntilIdleAux 8 [ReadEvent.data [65], ReadEvent.timeout] [] false).1, 2) :=
  (claim_c7_payload_retry 8 true (.ok ()) (.ok ())
      [.timeout, .data [65], .timeout]).2.2.2.2.1
    [ReadEvent.data [65], ReadEvent.timeout] rfl (by decide) rfl rfl

/-! ### Command-mode acquisition (`client.rs::enter_command_mode` /
`probe_command_mode`) -/

/-- `client.rs::probe_command_mode`: send a bare `AT` command and classify
the framed response; the read uses the fixed `Duration::from_secs(2)`
first-byte timeout with the configured AT idle timeout.  `writeAt` is the
outcome of `write_all(b"AT\r\n")`.  The second component logs each framer
call's `(first_timeout, idle_timeout)` pair in milliseconds. -/
def probe_command_mode (maxLen atIdleMs : Nat) (writeAt : Except DtuAtError Unit)
    (events : List ReadEvent) : Except DtuAtError Unit × List (Nat × Nat) :=
  match writeAt with
  | .error e => (.error e, [])
  | .ok _ =>
      match readUntilIdleAux maxLen events [] false with
      | (.error e, _) => (.error e, [(2000, atIdleMs)])
      | (.ok rsp, _) =>
          (if contains_at_error rsp then .error .AtRejected
           else if !(contains_ok rsp) then .error .BadResponse
           else .ok (), [(2000, atIdleMs)])

/-- `client.rs::enter_command_mode` after the guard-time sleep: write the
`+++` escape (`writePlus`), frame with the AT timeouts, and either accept
an OK response, fall back to the AT probe when `probeFallback` is set, or
propagate the failure.  The log component records the framer calls'
`(first, idle)` timeouts in milliseconds. -/
def enter_command_mode (maxLen atFirstMs atIdleMs : Nat) (probeFallback : Bool)
    (writePlus writeAt : Except DtuAtError Unit) (events : List ReadEvent) :
    Except DtuAtError Unit × List (Nat × Nat) :=
  match writePlus with
  | .error e => (.error e, [])
  | .ok _ =>
      match readUntilIdleAux maxLen events [] false with
      | (.ok rsp, rest) =>
          if contains_ok rsp then (.ok (), [(atFirstMs, atIdleMs)])
          else if probeFallback then
            let p := probe_command_mode maxLen atIdleMs writeAt rest
            (p.1, (atFirstMs, atIdleMs) :: p.2)
          else (.error .BadResponse, [(atFirstMs, atIdleMs)])
      | (.error .Timeout, rest) =>
          if probeFallback then
            let p := probe_command_mode maxLen atIdleMs writeAt rest
            (p.1, (atFirstMs, atIdleMs) :: p.2)
          else (.error .Timeout, [(atFirstMs, atIdleMs)])
      | (.error e, _) => (.error e, [(atFirstMs, atIdleMs)])

/-- C8: when the `+++` response lacks an OK marker (or framing times out)
and probe fallback is enabled, a bare `AT` probe runs with the fixed
2000 ms first-byte timeout, and its framed response is classified: error
marker → `AtRejected`; OK without error marker → success; neither →
`BadResponse`.  With the fallback disabled, the non-OK outcome propagates
directly (`BadResponse`, or the initial `Timeout`), with no probe read. -/
theorem claim_c8_probe_fallback :
    ∀ (maxLen atFirstMs atIdleMs : Nat) (writeAt : Except DtuAtError Unit)
      (events rest rest2 : List ReadEvent) (rsp prsp : List Nat),
      (readUntilIdleAux maxLen events [] false = (.ok rsp, rest) →
        contains_ok rsp = true →
        ∀ probeFallback,
          enter_command_mode maxLen atFirstMs atIdleMs probeFallback (.ok ()) writeAt
            events = (.ok (), [(atFirstMs, atIdleMs)]))
      ∧ (readUntilIdleAux maxLen events [] false = (.ok rsp, rest) →
          contains_ok rsp = false →
          readUntilIdleAux maxLen rest [] false = (.ok prsp, rest2) →
          enter_command_mode maxLen atFirstMs atIdleMs true (.ok ()) (.ok ()) events =
            ((if contains_at_error prsp then .error .AtRejected
              else if contains_ok prsp then .ok () else .error .BadResponse),
             [(atFirstMs, atIdleMs), (2000, atIdleMs)]))
      ∧ (readUntilIdleAux maxLen events [] false = (.error .Timeout, rest) →
          readUntilIdleAux maxLen rest [] false = (.ok prsp, rest2) →
          enter_command_mode maxLen atFirstMs atIdleMs true (.ok ()) (.ok ()) events =
            ((if contains_at_error prsp then .error .AtRejected
              else if contains_ok prsp then .ok () else .error .BadResponse),
             [(atFirstMs, atIdleMs), (2000, atIdleMs)]))
      ∧ (readUntilIdleAux maxLen events [] false = (.ok rsp, rest) →
          contains_ok rsp = false →
          enter_command_mode maxLen atFirstMs atIdleMs false (.ok ()) writeAt events =
            (.error .BadResponse, [(atFirstMs, atIdleMs)]))
      ∧ (readUntilIdleAux maxLen events [] false = (.error .Timeout, rest) →
          enter_command_mode maxLen atFirstMs atIdleMs false (.ok ()) writeAt events =
            (.error .Timeout, [(atFirstMs, atIdleMs)])) := by
  intro maxLen atFirstMs atIdleMs writeAt events rest rest2 rsp prsp
  refine ⟨?_, ?_, ?_, ?_, ?_⟩
  · intro hread hok probeFallback
    unfold enter_command_mode
    rw [hread]
    simp only [hok, if_true]
  · intro hread hok hprobe
    unfold enter_command_mode
    rw [hread]
    simp only [hok, Bool.false_eq_true, if_false, if_true]
    unfold probe_command_mode
    rw [hprobe]
    by_cases he : contains_at_error prsp = true
    · simp [he]
    · rw [Bool.not_eq_true] at he
      by_cases ho : contains_ok prsp = true
      · simp [he, ho]
      · rw [Bool.not_eq_true] at ho
        simp [he, ho]
  · intro hread hprobe
    unfold enter_command_mode
    rw [hread]
    simp only [if_true]
    unfold probe_command_mode
    rw [hprobe]
    by_cases he : contains_at_error prsp = true
    · simp [he]
    · rw [Bool.not_eq_true] at he
      by_cases ho : contains_ok prsp = true
      · simp [he, ho]
      · rw [Bool.not_eq_true] at ho
        simp [he, ho]
  · intro hread hok
    unfold enter_command_mode
    rw [hread]
    simp [hok]
  · intro hread
    unfold enter_command_mode
    rw [hread]
    simp

/-- Witness for C8: a `+++` timeout with the fallback enabled probes with
the fixed 2-second first timeout and accepts the probe's `OK`. -/
theorem claim_c8_witness :
    enter_command_mode 64 1500 250 true (.ok ()) (.ok ())
        [.timeout, .data (asciiBytes "\r\nOK\r\n"), .timeout] =
      ((if contains_at_error (asciiBytes "\r\nOK\r\n") then .error .AtRejected
        else if contains_ok (asciiBytes "\r\nOK\r\n") then .ok ()
        else .error .BadResponse),
       [(1500, 250), (2000, 250)]) :=
  (claim_c8_probe_fallback 64 1500 250 (.ok ())
      [.timeout, .data (asciiBytes "\r\nOK\r\n"), .timeout]
      [ReadEvent.data (asciiBytes "\r\nOK\r\n"), ReadEvent.timeout] []
      [] (asciiBytes "\r\nOK\r\n")).2.2.1 (by decide) (by decide)

/-! ### Save-and-wait-ready (`client.rs::send_save_and_wait_http_ready`) -/

/-- Poll/classify loop of `send_save_and_wait_http_ready`: poll the framer
(quiet), skip timeouts and empty chunks, merge a chunk only when it keeps
the buffer within `max_response_len`, then classify the running buffer
(`ERR`/`ERROR` → `AtRejected`, `FS@HTTP FAIL:` → `BadResponse`,
`FS@HTTP OK:` → ready).  `fuel` counts the poll windows before the
ready-timeout deadline.  Returns the result with the final buffer. -/
def saveWaitLoop (maxLen : Nat) :
    Nat → List ReadEvent → List Nat → Except DtuAtError Unit × List Nat
  | 0, _, merged => (.error .Timeout, merged)
  | fuel + 1, events, merged =>
      match readUntilIdleAux maxLen events [] false with
      | (.error .Timeout, rest) => saveWaitLoop maxLen fuel rest merged
      | (.error e, _) => (.error e, merged)
      | (.ok chunk, rest) =>
          if chunk = [] then saveWaitLoop maxLen fuel rest merged
          else
            let merged' :=
              if merged.length + chunk.length ≤ maxLen then merged ++ chunk else merged
            if contains_at_error merged' then (.error .AtRejected, merged')
            else if contains_http_fail merged' then (.error .BadResponse, merged')
            else if contains_http_ready merged' then (.ok (), merged')
            else saveWaitLoop maxLen fuel rest merged'

/-- `client.rs::send_save_and_wait_http_ready`: write `AT+S` and CRLF
(outcomes `w1`, `w2`), then run the poll/classify loop on an empty
buffer. -/
def send_save_and_wait_http_ready (maxLen : Nat) (w1 w2 : Except DtuAtError Unit)
    (fuel : Nat) (events : List ReadEvent) : Except DtuAtError Unit × List Nat :=
  match w1 with
  | .error e => (.error e, [])
  | .ok _ =>
      match w2 with
      | .error e => (.error e, [])
      | .ok _ => saveWaitLoop maxLen fuel events []

/-- A buffer containing the `CLIENT ERROR`/`SERVER ERROR` vendor code
marker always classifies as an AT error, because `ERROR` occurs inside
the marker. -/
theorem contains_at_error_of_vendor_marker (buf : List Nat)
    (h : (find_subslice buf clientErrorCodeMarker).isSome ∨
      (find_subslice buf serverErrorCodeMarker).isSome) :
    contains_at_error buf = true := by
  rw [contains_at_error_iff]
  right
  rcases h with h | h
  · exact (((find_subslice_isSome_iff clientErrorCodeMarker errorBytes).mp
      (by decide)).2).trans ((find_subslice_isSome_iff buf clientErrorCodeMarker).mp h).2
  · exact (((find_subslice_isSome_iff serverErrorCodeMarker errorBytes).mp
      (by decide)).2).trans ((find_subslice_isSome_iff buf serverErrorCodeMarker).mp h).2

/-- C9: the 4xx/5xx vendor CODE markers contain `ERROR`, so any buffer
carrying them classifies as an AT error; hence during save-and-wait-ready
a merged chunk carrying such a line ends the phase with `AtRejected`
(checked before the ready marker) rather than acting as a status
carrier. -/
theorem claim_c9_vendor_error_rejected :
    (∀ buf : List Nat,
        (find_subslice buf clientErrorCodeMarker).isSome ∨
          (find_subslice buf serverErrorCodeMarker).isSome →
        contains_at_error buf = true)
    ∧ (∀ (maxLen fuel : Nat) (events rest : List ReadEvent)
        (merged chunk : List Nat),
        readUntilIdleAux maxLen events [] false = (.ok chunk, rest) →
        chunk ≠ [] →
        merged.length + chunk.length ≤ maxLen →
        ((find_subslice chunk clientErrorCodeMarker).isSome ∨
          (find_subslice chunk serverErrorCodeMarker).isSome) →
        saveWaitLoop maxLen (fuel + 1) events merged =
          (.error .AtRejected, merged ++ chunk)) := by
  refine ⟨contains_at_error_of_vendor_marker, ?_⟩
  intro maxLen fuel events rest merged chunk hread hne hcap hmark
  have hsome : (find_subslice (merged ++ chunk) clientErrorCodeMarker).isSome ∨
      (find_subslice (merged ++ chunk) serverErrorCodeMarker).isSome := by
    rcases hmark with h | h
    · exact Or.inl (find_subslice_isSome_append merged chunk _ h)
    · exact Or.inr (find_subslice_isSome_append merged chunk _ h)
  have herr := contains_at_error_of_vendor_marker (merged ++ chunk) hsome
  simp only [saveWaitLoop]
  rw [hread]
  simp only [hne, if_neg, if_pos hcap, herr, if_true]
  simp

/-- Witness for C9: a single chunk carrying an `FS@HTTP CLIENT ERROR
CODE:` line makes the save-wait phase fail `AtRejected`. -/
theorem claim_c9_witness :
    saveWaitLoop 64 1
        [.data (asciiBytes "FS@HTTP CLIENT ERROR CODE:1,404\r\n"), .timeout] [] =
      (.error .AtRejected, [] ++ asciiBytes "FS@HTTP CLIENT ERROR CODE:1,404\r\n") :=
  claim_c9_vendor_error_rejected.2 64 0
    [.data (asciiBytes "FS@HTTP CLIENT ERROR CODE:1,404\r\n"), .timeout] []
    [] (asciiBytes "FS@HTTP CLIENT ERROR CODE:1,404\r\n")
    (by decide) (by decide) (by decide) (Or.inl (by decide))

theorem saveWaitLoop_len (maxLen : Nat) :
    ∀ (fuel : Nat) (events : List ReadEvent) (merged : List Nat),
      merged.length ≤ maxLen →
      (saveWaitLoop maxLen fuel events merged).2.length ≤ maxLen := by
  intro fuel
  induction fuel with
  | zero => intro events merged h; exact h
  | succ fuel ih =>
      intro events merged h
      simp only [saveWaitLoop]
      rcases hread : readUntilIdleAux maxLen events [] false with ⟨res, rest⟩
      match res with
      | .error .Timeout => exact ih rest merged h
      | .error (.Transport io) => exact h
      | .error .WriteZero => exact h
      | .error (.InvalidConfig m) => exact h
      | .error .AtRejected => exact h
      | .error .BadResponse => exact h
      | .error .ResponseTooLarge => exact h
      | .error .BodyMissing => exact h
      | .error (.HttpFail c) => exact h
      | .ok chunk =>
          simp only []
          by_cases hc : chunk = []
          · rw [if_pos hc]
            exact ih rest merged h
          · rw [if_neg hc]
            have hm' : (if merged.length + chunk.length ≤ maxLen
                then merged ++ chunk else merged).length ≤ maxLen := by
              by_cases hcap : merged.length + chunk.length ≤ maxLen
              · rw [if_pos hcap]; simp; omega
              · rw [if_neg hcap]; exact h
            by_cases h1 : contains_at_error (if merged.length + chunk.length ≤ maxLen
                then merged ++ chunk else merged) = true
            · rw [if_pos h1]; exact hm'
            · rw [if_neg h1]
              by_cases h2 : contains_http_fail (if merged.length + chunk.length ≤ maxLen
                  then merged ++ chunk else merged) = true
              · rw [if_pos h2]; exact hm'
              · rw [if_neg h2]
                by_cases h3 : contains_http_ready (if merged.length + chunk.length ≤ maxLen
                    then merged ++ chunk else merged) = true
                · rw [if_pos h3]; exact hm'
                · rw [if_neg h3]
                  exact ih rest _ hm'

/-- The possible outcomes of the whole save-and-wait phase, writes
included. -/
def saveWaitPhaseOutcome (r : Except DtuAtError Unit) : Prop :=
  r = .ok () ∨ r = .error .Timeout ∨ r = .error .AtRejected ∨
    r = .error .BadResponse ∨ r = .error .ResponseTooLarge ∨
    r = .error .WriteZero ∨ ∃ io, r = .error (.Transport io)

theorem saveWaitLoop_outcomes (maxLen : Nat) :
    ∀ (fuel : Nat) (events : List ReadEvent) (merged : List Nat),
      saveWaitPhaseOutcome (saveWaitLoop maxLen fuel events merged).1 := by
  intro fuel
  induction fuel with
  | zero =>
      intro events merged
      exact Or.inr (Or.inl rfl)
  | succ fuel ih =>
      intro events merged
      simp only [saveWaitLoop]
      rcases hread : readUntilIdleAux maxLen events [] false with ⟨res, rest⟩
      match res with
      | .ok chunk =>
          simp only []
          by_cases hc : chunk = []
          · rw [if_pos hc]; exact ih rest merged
          · rw [if_neg hc]
            by_cases h1 : contains_at_error (if merged.length + chunk.length ≤ maxLen
                then merged ++ chunk else merged) = true
            · rw [if_pos h1]
              exact Or.inr (Or.inr (Or.inl rfl))
            · rw [if_neg h1]
              by_cases h2 : contains_http_fail (if merged.length + chunk.length ≤ maxLen
                  then merged ++ chunk else merged) = true
              · rw [if_pos h2]
                exact Or.inr (Or.inr (Or.inr (Or.inl rfl)))
              · rw [if_neg h2]
                by_cases h3 : contains_http_ready (if merged.length + chunk.length ≤ maxLen
                    then merged ++ chunk else merged) = true
                · rw [if_pos h3]
                  exact Or.inl rfl
                · rw [if_neg h3]
                  exact ih rest _
      | .error e =>
          have hcases := readUntilIdleAux_error_cases maxLen events [] false e rest hread
          match e, hcases with
          | .Timeout, _ => exact ih rest merged
          | .Transport io, _ =>
              exact Or.inr (Or.inr (Or.inr (Or.inr (Or.inr (Or.inr ⟨io, rfl⟩)))))
          | .ResponseTooLarge, _ =>
              exact Or.inr (Or.inr (Or.inr (Or.inr (Or.inl rfl))))
          | .WriteZero, hcases => rcases hcases with h | ⟨io, h⟩ | h <;> simp at h
          | .InvalidConfig m, hcases => rcases hcases with h | ⟨io, h⟩ | h <;> simp at h
          | .AtRejected, hcases => rcases hcases with h | ⟨io, h⟩ | h <;> simp at h
          | .BadResponse, hcases => rcases hcases with h | ⟨io, h⟩ | h <;> simp at h
          | .BodyMissing, hcases => rcases hcases with h | ⟨io, h⟩ | h <;> simp at h
          | .HttpFail c, hcases => rcases hcases with h | ⟨io, h⟩ | h <;> simp at h

/-- Counterexample to C10 as stated: the phase can fail with
`ResponseTooLarge` (a single framed burst over the cap propagates out of
the inner framer via the non-Timeout error arm), and with `WriteZero`
(from the initial `AT+S` write), neither of which the claim's outcome
enumeration admits. -/
theorem claim_c10_counterexample :
    (send_save_and_wait_http_ready 1 (.ok ()) (.ok ()) 1 [.data [65, 66]]).1 =
        .error .ResponseTooLarge ∧
    (send_save_and_wait_http_ready 1 (.error .WriteZero) (.ok ()) 1 []).1 =
        .error .WriteZero :=
  ⟨by decide, by decide⟩

/-- C10 (amended): a successfully framed chunk whose addition would
exceed `max_response_len` is silently discarded — the buffer is left
unchanged, no error is raised at the merge step, and classification
continues on the unextended buffer — and the buffer never exceeds
`max_response_len`; but the phase can also end with `ResponseTooLarge`
(from a single over-cap burst inside the framer) or `WriteZero` (from the
initial writes), so its outcomes are success, `AtRejected`,
`BadResponse`, `Timeout`, `ResponseTooLarge`, `WriteZero`, or a transport
error. -/
theorem claim_c10_save_wait_discard :
    (∀ (maxLen fuel : Nat) (events rest : List ReadEvent) (merged chunk : List Nat),
        readUntilIdleAux maxLen events [] false = (.ok chunk, rest) →
        chunk ≠ [] → maxLen < merged.length + chunk.length →
        saveWaitLoop maxLen (fuel + 1) events merged =
          (if contains_at_error merged then (.error .AtRejected, merged)
           else if contains_http_fail merged then (.error .BadResponse, merged)
           else if contains_http_ready merged then (.ok (), merged)
           else saveWaitLoop maxLen fuel rest merged))
    ∧ (∀ (maxLen fuel : Nat) (events : List ReadEvent) (merged : List Nat),
        merged.length ≤ maxLen →
        (saveWaitLoop maxLen fuel events merged).2.length ≤ maxLen)
    ∧ (∀ (maxLen fuel : Nat) (events : List ReadEvent)
        (w1 w2 : Except DtuAtError Unit),
        (w1 = .ok () ∨ w1 = .error .WriteZero ∨ (∃ io, w1 = .error (.Transport io))) →
        (w2 = .ok () ∨ w2 = .error .WriteZero ∨ (∃ io, w2 = .error (.Transport io))) →
        saveWaitPhaseOutcome (send_save_and_wait_http_ready maxLen w1 w2 fuel events).1) := by
  refine ⟨?_, saveWaitLoop_len, ?_⟩
  · intro maxLen fuel events rest merged chunk hread hne hcap
    have hnocap : ¬(merged.length + chunk.length ≤ maxLen) := by omega
    simp only [saveWaitLoop]
    rw [hread]
    simp only [hne, if_neg, if_pos, hnocap, if_false]
  · intro maxLen fuel events w1 w2 hw1 hw2
    rcases hw1 with h | h | ⟨io, h⟩ <;> subst h
    · rcases hw2 with h | h | ⟨io, h⟩ <;> subst h
      · exact saveWaitLoop_outcomes maxLen fuel events []
      · exact Or.inr (Or.inr (Or.inr (Or.inr (Or.inr (Or.inl rfl)))))
      · exact Or.inr (Or.inr (Or.inr (Or.inr (Or.inr (Or.inr ⟨io, rfl⟩)))))
    · exact Or.inr (Or.inr (Or.inr (Or.inr (Or.inr (Or.inl rfl)))))
    · exact Or.inr (Or.inr (Or.inr (Or.inr (Or.inr (Or.inr ⟨io, rfl⟩)))))

/-- Witness for C10 (amended): a 1-byte chunk on a full 2-byte buffer is
discarded and the loop polls on, ending in `Timeout` with the buffer
unchanged. -/
theorem claim_c10_witness :
    saveWaitLoop 2 1 [.data [65], .timeout] [9, 9] =
      (if contains_at_error [9, 9] then (.error .AtRejected, [9, 9])
       else if contains_http_fail [9, 9] then (.error .BadResponse, [9, 9])
       else if contains_http_ready [9, 9] then (.ok (), [9, 9])
       else saveWaitLoop 2 0 [] [9, 9]) :=
  claim_c10_save_wait_discard.1 2 0 [.data [65], .timeout] [] [9, 9] [65]
    (by decide) (by decide) (by decide)

end DtuAt
